import Mathlib

/-!
Verification development for the kalshi-alerts analytics-and-alerting core.

Shallow embedding of the four analytic components:
* Scoring Engine (`src/scoring.py`, `score_trade`)
* Cluster Correlator (`src/clustering.py`, `MarketClusterTracker`)
* Baseline Tracker (`src/baselines.py`, `MarketBaselines`)
* Alert Gateway (`src/alert_manager.py`, `AlertManager`)

Python floats are modelled as rationals (ℚ), Python ints as ℤ/ℕ.
Message rendering and `print` logging are side-effect-free string work and
are omitted: no claim concerns message contents.  The external send
primitive (`Alerter.send`, which catches every exception internally and
returns a boolean) is modelled as a boolean success flag supplied to each
gateway operation.
-/

namespace KalshiAlerts

/-! ## Scoring Engine (`src/scoring.py`) -/

/-- A reason tag appended by `score_trade`.  The Python code appends
formatted strings; each constructor records which format string was used
and carries the computed metric that the string interpolates. -/
inductive Reason where
  | size_z (z : ℚ)
  | burst (r : ℚ)
  | short_dated_24h
  | short_dated_72h
  | short_dated_7d
  | abs_size_250k
  | abs_size_100k
deriving Repr, DecidableEq

/-- The fields of the `baselines` dict that `score_trade` reads:
`median_24h` / `mad_24h` via `.get` (may be absent → `Option`), and
`trades_1m` / `trades_60m` via `.get(_, 0)`. -/
structure BaselineSnapshot where
  median_24h : Option ℚ
  mad_24h : Option ℚ
  trades_1m : ℚ
  trades_60m : ℚ
deriving Repr, DecidableEq

/-- Result dict of `score_trade`: `{"score": ..., "reasons": [...]}`. -/
structure ScoreResult where
  score : ℕ
  reasons : List Reason
deriving Repr, DecidableEq

/-- Block 1 of `score_trade` (size shock): reads the accumulated
`(score, reasons)` pair and performs the `score += ...` /
`reasons.append(...)` updates of that block. -/
def sizeShockStep (acc : ℕ × List Reason) (volume_proxy : ℚ)
    (median_24h mad_24h : Option ℚ) : ℕ × List Reason :=
  match median_24h, mad_24h with
  | some median, some mad =>
    if 0 < mad then
      let z := (volume_proxy - median) / ((14826 / 10000 : ℚ) * mad + 1)
      if 8 ≤ z then (acc.1 + 40, acc.2 ++ [Reason.size_z z])
      else if 5 ≤ z then (acc.1 + 25, acc.2 ++ [Reason.size_z z])
      else if 3 ≤ z then (acc.1 + 10, acc.2 ++ [Reason.size_z z])
      else acc
    else acc
  | _, _ => acc

/-- Block 2 of `score_trade` (burst). -/
def burstStep (acc : ℕ × List Reason) (trades_1m trades_60m : ℚ) :
    ℕ × List Reason :=
  let avg_per_min := max (trades_60m / 60) 1
  let burst := trades_1m / avg_per_min
  if 10 ≤ burst then (acc.1 + 25, acc.2 ++ [Reason.burst burst])
  else if 6 ≤ burst then (acc.1 + 18, acc.2 ++ [Reason.burst burst])
  else if 3 ≤ burst then (acc.1 + 10, acc.2 ++ [Reason.burst burst])
  else acc

/-- Block 3 of `score_trade` (short-dated). -/
def shortDatedStep (acc : ℕ × List Reason) (hours_to_close : Option ℚ) :
    ℕ × List Reason :=
  match hours_to_close with
  | some htc =>
    if htc ≤ 24 then (acc.1 + 20, acc.2 ++ [Reason.short_dated_24h])
    else if htc ≤ 72 then (acc.1 + 12, acc.2 ++ [Reason.short_dated_72h])
    else if htc ≤ 168 then (acc.1 + 6, acc.2 ++ [Reason.short_dated_7d])
    else acc
  | none => acc

/-- Block 4 of `score_trade` (absolute size gate). -/
def absSizeStep (acc : ℕ × List Reason) (volume_proxy : ℚ) :
    ℕ × List Reason :=
  if 250000 ≤ volume_proxy then (acc.1 + 20, acc.2 ++ [Reason.abs_size_250k])
  else if 100000 ≤ volume_proxy then (acc.1 + 15, acc.2 ++ [Reason.abs_size_100k])
  else acc

/-- `score_trade` from `src/scoring.py`: starts from `score = 0`,
`reasons = []`, runs the four signal blocks in order, each mutating the
accumulated pair, then clamps the score with `min(score, 100)`. -/
def score_trade (volume_proxy : ℚ) (baselines : BaselineSnapshot)
    (hours_to_close : Option ℚ) : ScoreResult :=
  let p1 := sizeShockStep (0, []) volume_proxy baselines.median_24h baselines.mad_24h
  let p2 := burstStep p1 baselines.trades_1m baselines.trades_60m
  let p3 := shortDatedStep p2 hours_to_close
  let p4 := absSizeStep p3 volume_proxy
  ⟨min p4.1 100, p4.2⟩

/-- The size-shock signal of `score_trade` in isolation: its contribution
to the score and the reason tags it appends. -/
def sizeShockSignal (volume_proxy : ℚ) (median_24h mad_24h : Option ℚ) :
    ℕ × List Reason :=
  match median_24h, mad_24h with
  | some median, some mad =>
    if 0 < mad then
      let z := (volume_proxy - median) / ((14826 / 10000 : ℚ) * mad + 1)
      if 8 ≤ z then (40, [Reason.size_z z])
      else if 5 ≤ z then (25, [Reason.size_z z])
      else if 3 ≤ z then (10, [Reason.size_z z])
      else (0, [])
    else (0, [])
  | _, _ => (0, [])

/-- The burst signal of `score_trade` in isolation. -/
def burstSignal (trades_1m trades_60m : ℚ) : ℕ × List Reason :=
  let avg_per_min := max (trades_60m / 60) 1
  let burst := trades_1m / avg_per_min
  if 10 ≤ burst then (25, [Reason.burst burst])
  else if 6 ≤ burst then (18, [Reason.burst burst])
  else if 3 ≤ burst then (10, [Reason.burst burst])
  else (0, [])

/-- The short-dated signal of `score_trade` in isolation. -/
def shortDatedSignal (hours_to_close : Option ℚ) : ℕ × List Reason :=
  match hours_to_close with
  | some htc =>
    if htc ≤ 24 then (20, [Reason.short_dated_24h])
    else if htc ≤ 72 then (12, [Reason.short_dated_72h])
    else if htc ≤ 168 then (6, [Reason.short_dated_7d])
    else (0, [])
  | none => (0, [])

/-- The absolute-size signal of `score_trade` in isolation. -/
def absSizeSignal (volume_proxy : ℚ) : ℕ × List Reason :=
  if 250000 ≤ volume_proxy then (20, [Reason.abs_size_250k])
  else if 100000 ≤ volume_proxy then (15, [Reason.abs_size_100k])
  else (0, [])

lemma sizeShockStep_eq (acc : ℕ × List Reason) (v : ℚ) (m d : Option ℚ) :
    sizeShockStep acc v m d =
      (acc.1 + (sizeShockSignal v m d).1, acc.2 ++ (sizeShockSignal v m d).2) := by
  rcases m with _ | m <;> rcases d with _ | d <;>
    simp only [sizeShockStep, sizeShockSignal] <;> (try split_ifs) <;> simp

lemma burstStep_eq (acc : ℕ × List Reason) (t1 t60 : ℚ) :
    burstStep acc t1 t60 =
      (acc.1 + (burstSignal t1 t60).1, acc.2 ++ (burstSignal t1 t60).2) := by
  simp only [burstStep, burstSignal]
  split_ifs <;> simp

lemma shortDatedStep_eq (acc : ℕ × List Reason) (h : Option ℚ) :
    shortDatedStep acc h =
      (acc.1 + (shortDatedSignal h).1, acc.2 ++ (shortDatedSignal h).2) := by
  rcases h with _ | h
  · simp [shortDatedStep, shortDatedSignal]
  · simp only [shortDatedStep, shortDatedSignal]
    split_ifs <;> simp

lemma absSizeStep_eq (acc : ℕ × List Reason) (v : ℚ) :
    absSizeStep acc v =
      (acc.1 + (absSizeSignal v).1, acc.2 ++ (absSizeSignal v).2) := by
  simp only [absSizeStep, absSizeSignal]
  split_ifs <;> simp

/-- Decomposition of the sequential accumulation in `score_trade` into the
four independent per-signal contributions. -/
lemma score_trade_decomp (v : ℚ) (b : BaselineSnapshot) (h : Option ℚ) :
    score_trade v b h =
      ⟨min ((sizeShockSignal v b.median_24h b.mad_24h).1 +
            (burstSignal b.trades_1m b.trades_60m).1 +
            (shortDatedSignal h).1 + (absSizeSignal v).1) 100,
       (sizeShockSignal v b.median_24h b.mad_24h).2 ++
       (burstSignal b.trades_1m b.trades_60m).2 ++
       (shortDatedSignal h).2 ++ (absSizeSignal v).2⟩ := by
  simp only [score_trade, sizeShockStep_eq, burstStep_eq, shortDatedStep_eq,
    absSizeStep_eq, List.nil_append, List.append_assoc, Nat.zero_add, Nat.add_assoc]

/-! ## Cluster Correlator (`src/clustering.py`) -/

/-- One entry of a cluster deque: `(ts, ticker, score)`. -/
structure ClusterEvent where
  ts : ℚ
  ticker : String
  score : ℚ
deriving Repr, DecidableEq

/-- Summary dict returned by `add_event`. -/
structure ClusterSummary where
  count : ℕ
  markets : List String
  max_score : ℚ
deriving Repr, DecidableEq

/-- Python `max(scores) if scores else 0`. -/
def pymax (scores : List ℚ) : ℚ :=
  match scores with
  | [] => 0
  | s :: rest => rest.foldl max s

/-- `MarketClusterTracker` state: correlation window length and the
`defaultdict(deque)` mapping cluster keys to event deques (front of the
list = head of the deque, missing key = empty deque). -/
structure MarketClusterTracker where
  window : ℚ
  events : String → List ClusterEvent

/-- `MarketClusterTracker._prune`: pop entries from the head while their
timestamp is before `now - window`. -/
def MarketClusterTracker.pruneDeque (tr : MarketClusterTracker) (dq : List ClusterEvent)
    (now : ℚ) : List ClusterEvent :=
  dq.dropWhile (fun e => decide (e.ts < now - tr.window))

/-- `MarketClusterTracker.add_event`: append `(now, ticker, score)` to the
key's deque, prune against `now`, and return the updated tracker together
with the summary `{count, markets, max_score}` built from the distinct
tickers and scores currently in the deque.  `now` is the wall-clock time
of the call (`time.time()`); the Python `set` of tickers is modelled as
the deduplicated list of tickers in deque order. -/
def MarketClusterTracker.add_event (tr : MarketClusterTracker) (now : ℚ)
    (cluster_key ticker : String) (score : ℚ) :
    MarketClusterTracker × ClusterSummary :=
  let dq := tr.events cluster_key
  let dq1 := tr.pruneDeque (dq ++ [⟨now, ticker, score⟩]) now
  let unique_markets := (dq1.map ClusterEvent.ticker).dedup
  let scores := dq1.map ClusterEvent.score
  (⟨tr.window, fun k => if k = cluster_key then dq1 else tr.events k⟩,
   ⟨unique_markets.length, unique_markets, pymax scores⟩)

/-! ### Generic list lemmas for sliding-window pruning -/

/-- On a list whose keys are sorted (non-decreasing), popping from the
front while the key is below a cutoff is the same as filtering for keys
at or above the cutoff. -/
lemma dropWhile_lt_eq_filter_le {α K : Type _} [LinearOrder K] (key : α → K)
    (c : K) (l : List α) (hs : l.Pairwise (fun a b => key a ≤ key b)) :
    l.dropWhile (fun e => decide (key e < c)) =
      l.filter (fun e => decide (c ≤ key e)) := by
  induction l with
  | nil => rfl
  | cons x xs ih =>
    rcases hs with _ | ⟨hx, hxs⟩
    by_cases hxc : key x < c
    · rw [List.dropWhile_cons_of_pos (by simpa using hxc), ih hxs,
        List.filter_cons_of_neg (by simpa using not_le.mpr hxc)]
    · rw [List.dropWhile_cons_of_neg (by simpa using hxc),
        List.filter_cons_of_pos (by simpa using not_lt.mp hxc)]
      have : ∀ e ∈ xs, (fun e => decide (c ≤ key e)) e = true := by
        intro e he
        simp only [decide_eq_true_eq]
        exact le_trans (not_lt.mp hxc) (hx e he)
      rw [List.filter_eq_self.mpr this]

/-- Appending an element that does not satisfy the predicate commutes
with `dropWhile`: the new last element always survives. -/
lemma dropWhile_append_singleton {α : Type _} (p : α → Bool) (l : List α)
    (e : α) (he : p e = false) :
    (l ++ [e]).dropWhile p = l.dropWhile p ++ [e] := by
  induction l with
  | nil => simp [List.dropWhile, he]
  | cons x xs ih =>
    by_cases hx : p x = true
    · simpa [List.dropWhile_cons_of_pos hx] using ih
    · simp [List.dropWhile_cons_of_neg hx]

/-- The number of distinct elements after appending one element: unchanged
if it is already present, one more otherwise. -/
lemma dedup_length_append_singleton {α : Type _} [DecidableEq α]
    (l : List α) (x : α) :
    (l ++ [x]).dedup.length =
      if x ∈ l then l.dedup.length else l.dedup.length + 1 := by
  have hcard : ∀ m : List α, m.dedup.length = m.toFinset.card := by
    intro m
    simp [List.card_toFinset]
  rw [hcard, hcard, List.toFinset_append]
  have : l.toFinset ∪ [x].toFinset = insert x l.toFinset := by
    rw [List.toFinset_cons, List.toFinset_nil, Finset.union_comm]
    ext a
    simp [or_comm]
  rw [this]
  by_cases hx : x ∈ l
  · rw [Finset.insert_eq_self.mpr (List.mem_toFinset.mpr hx), if_pos hx]
  · rw [Finset.card_insert_of_not_mem (fun hc => hx (List.mem_toFinset.mp hc)),
      if_neg hx]

/-- Every member of a list is at most `foldl max` over it. -/
lemma le_foldl_max (l : List ℚ) (b : ℚ) : b ≤ l.foldl max b := by
  induction l generalizing b with
  | nil => exact le_refl b
  | cons x xs ih => exact le_trans (le_max_left b x) (ih (max b x))

lemma mem_le_foldl_max (l : List ℚ) (b a : ℚ) (ha : a ∈ l) :
    a ≤ l.foldl max b := by
  induction l generalizing b with
  | nil => cases ha
  | cons x xs ih =>
    rcases List.mem_cons.mp ha with rfl | hmem
    · exact le_trans (le_max_right b a) (le_foldl_max xs (max b a))
    · exact ih (max b x) hmem

/-- Every member of a non-empty score list is at most its `pymax`. -/
lemma mem_le_pymax (l : List ℚ) (a : ℚ) (ha : a ∈ l) : a ≤ pymax l := by
  cases l with
  | nil => cases ha
  | cons s rest =>
    rcases List.mem_cons.mp ha with rfl | hmem
    · exact le_foldl_max rest a
    · exact mem_le_foldl_max rest s a hmem

/-! ## Baseline Tracker (`src/baselines.py`) -/

/-- One entry of a window deque: `(timestamp ms, volume_proxy)`. -/
structure TradeEntry where
  ts : ℤ
  vol : ℤ
deriving Repr, DecidableEq

/-- Insert into a sorted list, keeping it sorted (stable). -/
def insortQ (x : ℚ) : List ℚ → List ℚ
  | [] => [x]
  | y :: ys => if x ≤ y then x :: y :: ys else y :: insortQ x ys

/-- Sort a list of rationals (used to model Python's `sorted`). -/
def sortedQ (l : List ℚ) : List ℚ := l.foldr insortQ []

/-- `statistics.median`: middle element of the sorted data for odd length,
mean of the two middle elements for even length. -/
def pymedian (l : List ℚ) : ℚ :=
  let s := sortedQ l
  let n := l.length
  if n % 2 = 1 then s.getD (n / 2) 0
  else (s.getD (n / 2 - 1) 0 + s.getD (n / 2) 0) / 2

/-- Window durations in milliseconds (`WINDOWS_MS`). -/
def WIN_1M : ℤ := 60000
def WIN_5M : ℤ := 300000
def WIN_60M : ℤ := 3600000
def WIN_24H : ℤ := 86400000

/-- Per-ticker record of `MarketBaselines.data`: the four window deques
(front of list = head of deque) and the two derived statistics. -/
structure MarketState where
  w1m : List TradeEntry
  w5m : List TradeEntry
  w60m : List TradeEntry
  w24h : List TradeEntry
  median_24h : Option ℚ
  mad_24h : Option ℚ
deriving Repr, DecidableEq

/-- `MarketBaselines._init_market`: empty deques, stats `None`. -/
def initMarket : MarketState := ⟨[], [], [], [], none, none⟩

/-- The per-window body of the `for window, dq in ...` loop of
`MarketBaselines.update`: append `(now, volume_proxy)`, then evict from
the front while the head's timestamp is before `now - window`. -/
def appendAndPrune (window now vol : ℤ) (dq : List TradeEntry) : List TradeEntry :=
  (dq ++ [(⟨now, vol⟩ : TradeEntry)]).dropWhile (fun e => decide (e.ts < now - window))

/-- One update call's arguments: `(ts_received_ms, contracts, yes_price_cents)`. -/
structure UpdateCall where
  ts : ℤ
  contracts : ℤ
  yes_price : ℤ
deriving Repr, DecidableEq

/-- The per-ticker effect of `MarketBaselines.update`: computes
`volume_proxy = contracts * yes_price_cents`, appends and prunes all four
windows, then recomputes `median_24h` / `mad_24h` from the full 24h
window when it holds at least 5 samples (otherwise the previous values
are left in place). -/
def updateMarket (s : MarketState) (u : UpdateCall) : MarketState :=
  let vol := u.contracts * u.yes_price
  let now := u.ts
  let n1 := appendAndPrune WIN_1M now vol s.w1m
  let n5 := appendAndPrune WIN_5M now vol s.w5m
  let n60 := appendAndPrune WIN_60M now vol s.w60m
  let n24 := appendAndPrune WIN_24H now vol s.w24h
  let vols_24h : List ℚ := n24.map (fun e => (e.vol : ℚ))
  if 5 ≤ vols_24h.length then
    let med := pymedian vols_24h
    let abs_dev := vols_24h.map (fun v => |v - med|)
    let mad := pymedian abs_dev
    ⟨n1, n5, n60, n24, some med, some mad⟩
  else
    ⟨n1, n5, n60, n24, s.median_24h, s.mad_24h⟩

/-- `MarketBaselines.data`: dict from ticker to per-market record. -/
def BaselinesData := String → Option MarketState

/-- `MarketBaselines.update` at the dict level: lazily initialise the
ticker's record, then apply the per-ticker update. -/
def baselinesUpdate (d : BaselinesData) (ticker : String) (u : UpdateCall) :
    BaselinesData :=
  fun t =>
    if t = ticker then some (updateMarket ((d ticker).getD initMarket) u)
    else d t

/-- Run a sequence of per-ticker updates from a given state. -/
def runUpdatesFrom (s : MarketState) (upds : List UpdateCall) : MarketState :=
  upds.foldl updateMarket s

/-- The list of per-ticker states observed after each update of a run. -/
def runStates (s : MarketState) : List UpdateCall → List MarketState
  | [] => []
  | u :: rest => updateMarket s u :: runStates (updateMarket s u) rest

/-- Dict-level run of updates, all for the same ticker, starting from the
empty dict (`MarketBaselines.__init__`). -/
def runBaselines (ticker : String) (upds : List UpdateCall) : BaselinesData :=
  upds.foldl (fun d u => baselinesUpdate d ticker u) (fun _ => none)

/-- The dict-level run for one ticker coincides with the per-ticker fold. -/
lemma runBaselines_apply (ticker : String) (upds : List UpdateCall) (hne : upds ≠ []) :
    runBaselines ticker upds ticker = some (runUpdatesFrom initMarket upds) := by
  have key : ∀ (upds : List UpdateCall) (s : MarketState),
      upds ≠ [] →
      upds.foldl (fun d u => baselinesUpdate d ticker u) (fun t => if t = ticker then some s else none) ticker
        = some (runUpdatesFrom s upds) := by
    intro upds
    induction upds with
    | nil => intro s h; cases h rfl
    | cons u rest ih =>
      intro s _
      have hstep : (baselinesUpdate (fun t => if t = ticker then some s else none) ticker u)
          = fun t => if t = ticker then some (updateMarket s u) else none := by
        funext t
        by_cases ht : t = ticker <;> simp [baselinesUpdate, ht]
      rcases rest with _ | ⟨v, rest2⟩
      · simp [runBaselines, runUpdatesFrom, baselinesUpdate]
      · calc ((u :: v :: rest2).foldl (fun d u => baselinesUpdate d ticker u)
              (fun t => if t = ticker then some s else none)) ticker
            = ((v :: rest2).foldl (fun d u => baselinesUpdate d ticker u)
              (fun t => if t = ticker then some (updateMarket s u) else none)) ticker := by
              rw [List.foldl_cons, hstep]
          _ = some (runUpdatesFrom (updateMarket s u) (v :: rest2)) := ih _ (by simp)
          _ = some (runUpdatesFrom s (u :: v :: rest2)) := by
              simp [runUpdatesFrom]
  rcases upds with _ | ⟨u, rest⟩
  · cases hne rfl
  · have hstep : (baselinesUpdate (fun _ => none) ticker u)
        = fun t => if t = ticker then some (updateMarket initMarket u) else none := by
      funext t
      by_cases ht : t = ticker <;> simp [baselinesUpdate, ht, initMarket]
    rcases rest with _ | ⟨v, rest2⟩
    · simp [runBaselines, runUpdatesFrom, baselinesUpdate, initMarket]
    · calc (runBaselines ticker (u :: v :: rest2)) ticker
          = ((v :: rest2).foldl (fun d u => baselinesUpdate d ticker u)
            (fun t => if t = ticker then some (updateMarket initMarket u) else none)) ticker := by
            rw [runBaselines, List.foldl_cons, hstep]
        _ = some (runUpdatesFrom (updateMarket initMarket u) (v :: rest2)) := key _ _ (by simp)
        _ = some (runUpdatesFrom initMarket (u :: v :: rest2)) := by
            simp [runUpdatesFrom]

/-! ## Alert Gateway (`src/alert_manager.py`) -/

/-- Cooldown constants set in `AlertManager.__init__`. -/
def MARKET_COOLDOWN : ℚ := 600
def CLUSTER_COOLDOWN : ℚ := 300

/-- `AlertManager` state: configuration read in `__init__` plus mutable
counters and cooldown maps.  The `defaultdict(float)` cooldown maps are
modelled as total functions defaulting to `0`. -/
structure AMState where
  daily_cap : ℕ
  alerts_sent_today : ℕ
  market_last_alert : String → ℚ
  cluster_last_alert : String → ℚ
  alert_mode : String
  debug_sample_every : ℕ
  debug_min_contracts : ℤ
  debug_max_per_min : ℕ
  debug_trades_seen : ℕ
  debug_sent_last_min : ℕ
  debug_window_start : ℚ

/-- `AlertManager.__init__` with the given configuration. -/
def initAM (daily_cap : ℕ) (alert_mode : String) (debug_sample_every : ℕ)
    (debug_min_contracts : ℤ) (debug_max_per_min : ℕ) : AMState :=
  { daily_cap := daily_cap
    alerts_sent_today := 0
    market_last_alert := fun _ => 0
    cluster_last_alert := fun _ => 0
    alert_mode := alert_mode
    debug_sample_every := debug_sample_every
    debug_min_contracts := debug_min_contracts
    debug_max_per_min := debug_max_per_min
    debug_trades_seen := 0
    debug_sent_last_min := 0
    debug_window_start := 0 }

/-- `AlertManager.can_send`. -/
def AMState.can_send (s : AMState) : Bool := s.alerts_sent_today < s.daily_cap

/-- `AlertManager._send_internal`: suppress when the cap is reached;
otherwise call `alerter.send` (whose boolean result is the `success`
argument) and increment the counter only on success. -/
def sendInternal (s : AMState) (success : Bool) : AMState :=
  if ¬ s.can_send then s
  else if success then { s with alerts_sent_today := s.alerts_sent_today + 1 }
  else s

/-- `AlertManager.process_solo_alert`: hardcoded `score < 85` threshold
check, per-ticker cooldown check, then `_send_internal` followed by the
unconditional cooldown-timestamp update `market_last_alert[ticker] = now`.
Message rendering is omitted. -/
def process_solo_alert (s : AMState) (ticker : String) (score : ℚ)
    (now : ℚ) (success : Bool) : AMState :=
  if score < 85 then s
  else if now - s.market_last_alert ticker < MARKET_COOLDOWN then s
  else
    let s1 := sendInternal s success
    { s1 with market_last_alert :=
        fun t => if t = ticker then now else s1.market_last_alert t }

/-- `AlertManager.process_cluster_alert`: tier checks, per-cluster-key
cooldown check, then `_send_internal` followed by the unconditional
cooldown-timestamp update.  The `markets` list feeds only the rendered
message and is omitted. -/
def process_cluster_alert (s : AMState) (cluster_key : String) (count : ℕ)
    (max_score : ℚ) (now : ℚ) (success : Bool) : AMState :=
  let is_tier_1 := decide (70 ≤ max_score) && decide (2 ≤ count)
  let is_tier_2 := decide (60 ≤ max_score) && decide (3 ≤ count)
  if ¬ (is_tier_1 || is_tier_2) then s
  else if now - s.cluster_last_alert cluster_key < CLUSTER_COOLDOWN then s
  else
    let s1 := sendInternal s success
    { s1 with cluster_last_alert :=
        fun k => if k = cluster_key then now else s1.cluster_last_alert k }

/-- `AlertManager.process_debug_trade`: debug sampling lane, guarded by
`alert_mode == "debug"`, with a per-minute rate window and the shared
`_send_internal` path.  Message rendering is omitted. -/
def process_debug_trade (s : AMState) (contracts : ℤ) (now : ℚ)
    (success : Bool) : AMState :=
  if s.alert_mode ≠ "debug" then s
  else
    let s1 := { s with debug_trades_seen := s.debug_trades_seen + 1 }
    let s2 :=
      if 60 < now - s1.debug_window_start then
        { s1 with debug_window_start := now, debug_sent_last_min := 0 }
      else s1
    if s2.debug_max_per_min ≤ s2.debug_sent_last_min then s2
    else
      let is_sample := s2.debug_trades_seen % s2.debug_sample_every = 0
      let is_large := s2.debug_min_contracts ≤ contracts
      if is_sample ∨ is_large then
        let s3 := sendInternal s2 success
        { s3 with debug_sent_last_min := s3.debug_sent_last_min + 1 }
      else s2

/-- One alert attempt processed by the gateway: which entry point was
called, with its arguments, the wall-clock time of the call, and the
boolean result the send primitive would report. -/
inductive AlertOp where
  | solo (ticker : String) (score : ℚ) (now : ℚ) (success : Bool)
  | cluster (cluster_key : String) (count : ℕ) (max_score : ℚ) (now : ℚ) (success : Bool)
  | debugTrade (contracts : ℤ) (now : ℚ) (success : Bool)

/-- Dispatch one attempt to the corresponding gateway method. -/
def stepOp (s : AMState) : AlertOp → AMState
  | AlertOp.solo ticker score now success => process_solo_alert s ticker score now success
  | AlertOp.cluster key count max_score now success =>
      process_cluster_alert s key count max_score now success
  | AlertOp.debugTrade contracts now success => process_debug_trade s contracts now success

/-- Run a sequence of alert attempts through the gateway. -/
def runOps (s : AMState) (ops : List AlertOp) : AMState := ops.foldl stepOp s

lemma sendInternal_daily_cap (s : AMState) (b : Bool) :
    (sendInternal s b).daily_cap = s.daily_cap := by
  unfold sendInternal
  split_ifs <;> rfl

lemma sendInternal_le_cap (s : AMState) (b : Bool)
    (h : s.alerts_sent_today ≤ s.daily_cap) :
    (sendInternal s b).alerts_sent_today ≤ s.daily_cap := by
  unfold sendInternal AMState.can_send
  split_ifs with h1 h2 <;> simp_all
  omega

lemma stepOp_daily_cap (s : AMState) (op : AlertOp) :
    (stepOp s op).daily_cap = s.daily_cap := by
  cases op <;>
    simp only [stepOp, process_solo_alert, process_cluster_alert, process_debug_trade] <;>
    split_ifs <;> simp [sendInternal_daily_cap]

lemma stepOp_le_cap (s : AMState) (op : AlertOp)
    (h : s.alerts_sent_today ≤ s.daily_cap) :
    (stepOp s op).alerts_sent_today ≤ (stepOp s op).daily_cap := by
  rw [stepOp_daily_cap]
  cases op <;>
    simp only [stepOp, process_solo_alert, process_cluster_alert, process_debug_trade] <;>
    split_ifs <;>
    simp_all [sendInternal_le_cap, sendInternal_daily_cap]

lemma runOps_daily_cap (s : AMState) (ops : List AlertOp) :
    (runOps s ops).daily_cap = s.daily_cap := by
  induction ops generalizing s with
  | nil => rfl
  | cons op rest ih =>
    calc (runOps s (op :: rest)).daily_cap
        = (runOps (stepOp s op) rest).daily_cap := rfl
      _ = (stepOp s op).daily_cap := ih _
      _ = s.daily_cap := stepOp_daily_cap s op

lemma runOps_le_cap (s : AMState) (ops : List AlertOp)
    (h : s.alerts_sent_today ≤ s.daily_cap) :
    (runOps s ops).alerts_sent_today ≤ (runOps s ops).daily_cap := by
  induction ops generalizing s with
  | nil => exact h
  | cons op rest ih => exact ih (stepOp s op) (stepOp_le_cap s op h)

/-- Claim C1: for every configured `daily_cap` and every sequence of alert
attempts (solo, cluster or debug) processed by the gateway, the
confirmed-dispatch counter `alerts_sent_today` never exceeds the cap;
moreover a send is invoked only when the counter is strictly below the cap
(`_send_internal` is the identity once the cap is reached) and each
confirmed send increments the counter by at most 1. -/
theorem C1_daily_cap_invariant (daily_cap : ℕ) (alert_mode : String)
    (dse : ℕ) (dmc : ℤ) (dmpm : ℕ) (ops : List AlertOp) :
    (runOps (initAM daily_cap alert_mode dse dmc dmpm) ops).alerts_sent_today ≤ daily_cap ∧
    (∀ (s : AMState) (b : Bool), ¬ s.can_send → sendInternal s b = s) ∧
    (∀ (s : AMState) (b : Bool),
      (sendInternal s b).alerts_sent_today ≤ s.alerts_sent_today + 1) := by
  refine ⟨?_, ?_, ?_⟩
  · have h0 : (initAM daily_cap alert_mode dse dmc dmpm).alerts_sent_today
        ≤ (initAM daily_cap alert_mode dse dmc dmpm).daily_cap := by
      simp [initAM]
    have := runOps_le_cap (initAM daily_cap alert_mode dse dmc dmpm) ops h0
    rwa [runOps_daily_cap] at this
  · intro s b hns
    simp [sendInternal, hns]
  · intro s b
    unfold sendInternal
    split_ifs <;> simp

/-- Witness for claim C1 at concrete inputs: a run under cap 2 stays at
or below 2, and `_send_internal` is the identity on a capped state. -/
theorem C1_witness :
    (runOps (initAM 2 "prod" 20 200 3)
      [AlertOp.solo "T" 90 1000 true, AlertOp.solo "U" 90 1000 true,
       AlertOp.solo "V" 90 1000 true]).alerts_sent_today ≤ 2 ∧
    sendInternal (initAM 0 "prod" 20 200 3) true = initAM 0 "prod" 20 200 3 ∧
    (sendInternal (initAM 2 "prod" 20 200 3) true).alerts_sent_today
        ≤ (initAM 2 "prod" 20 200 3).alerts_sent_today + 1 :=
  ⟨(C1_daily_cap_invariant 2 "prod" 20 200 3
      [AlertOp.solo "T" 90 1000 true, AlertOp.solo "U" 90 1000 true,
       AlertOp.solo "V" 90 1000 true]).1,
   (C1_daily_cap_invariant 0 "prod" 20 200 3 []).2.1 (initAM 0 "prod" 20 200 3) true
     (by decide),
   (C1_daily_cap_invariant 0 "prod" 20 200 3 []).2.2 (initAM 2 "prod" 20 200 3) true⟩

lemma sendInternal_of_capped (s : AMState) (b : Bool)
    (h : s.daily_cap ≤ s.alerts_sent_today) : sendInternal s b = s := by
  have : s.can_send = false := by
    simp [AMState.can_send, Nat.not_lt.mpr h]
  simp [sendInternal, this]

lemma sendInternal_false (s : AMState) : sendInternal s false = s := by
  simp [sendInternal]

lemma sendInternal_true_of_can (s : AMState)
    (h : s.alerts_sent_today < s.daily_cap) :
    sendInternal s true = { s with alerts_sent_today := s.alerts_sent_today + 1 } := by
  have : s.can_send = true := by simp [AMState.can_send, h]
  simp [sendInternal, this]

/-- Claim C2 counterexample: gateway with `daily_cap = 0` (cap already
reached), fresh state; a solo candidate with score 90 at time 1000 passes
threshold and cooldown but is rejected by the cap — yet the cooldown
timestamp for `"T"` is mutated from 0 to 1000, so the state is not left
unchanged. -/
theorem C2_counterexample :
    (process_solo_alert (initAM 0 "prod" 20 200 3) "T" 90 1000 true).alerts_sent_today
        = (initAM 0 "prod" 20 200 3).alerts_sent_today ∧
    (initAM 0 "prod" 20 200 3).market_last_alert "T" = 0 ∧
    (process_solo_alert (initAM 0 "prod" 20 200 3) "T" 90 1000 true).market_last_alert "T"
        = 1000 := by
  have hsend : sendInternal (initAM 0 "prod" 20 200 3) true = initAM 0 "prod" 20 200 3 :=
    sendInternal_of_capped _ true (by simp [initAM])
  have h1 : ¬ (90 : ℚ) < 85 := by norm_num
  have h2 : ¬ (1000 : ℚ) - (initAM 0 "prod" 20 200 3).market_last_alert "T"
      < MARKET_COOLDOWN := by
    norm_num [initAM, MARKET_COOLDOWN]
  refine ⟨?_, rfl, ?_⟩ <;> simp [process_solo_alert, if_neg h1, if_neg h2, hsend]

/-- Claim C2 (amended): when a candidate alert passes the threshold and
cooldown checks but the confirmed-dispatch count has reached `daily_cap`,
the counter, the other lane's cooldown map, the other entries of its own
lane's cooldown map, and every remaining gateway field (cap, mode,
debug-lane state) are unchanged — but the last-sent cooldown timestamp
for the alerted ticker or cluster key IS set to the attempt time, because
`process_solo_alert` / `process_cluster_alert` stamp the cooldown after
`_send_internal` unconditionally. -/
theorem C2_amended_cap_reject_stamps_cooldown :
    (∀ (s : AMState) (ticker : String) (score now : ℚ) (success : Bool),
      ¬ score < 85 →
      ¬ now - s.market_last_alert ticker < MARKET_COOLDOWN →
      s.daily_cap ≤ s.alerts_sent_today →
      (process_solo_alert s ticker score now success).alerts_sent_today
          = s.alerts_sent_today ∧
      (process_solo_alert s ticker score now success).market_last_alert ticker = now ∧
      (∀ t, t ≠ ticker →
        (process_solo_alert s ticker score now success).market_last_alert t
            = s.market_last_alert t) ∧
      (process_solo_alert s ticker score now success).cluster_last_alert
          = s.cluster_last_alert ∧
      (process_solo_alert s ticker score now success).daily_cap = s.daily_cap ∧
      (process_solo_alert s ticker score now success).alert_mode = s.alert_mode ∧
      (process_solo_alert s ticker score now success).debug_sample_every
          = s.debug_sample_every ∧
      (process_solo_alert s ticker score now success).debug_min_contracts
          = s.debug_min_contracts ∧
      (process_solo_alert s ticker score now success).debug_max_per_min
          = s.debug_max_per_min ∧
      (process_solo_alert s ticker score now success).debug_trades_seen
          = s.debug_trades_seen ∧
      (process_solo_alert s ticker score now success).debug_sent_last_min
          = s.debug_sent_last_min ∧
      (process_solo_alert s ticker score now success).debug_window_start
          = s.debug_window_start) ∧
    (∀ (s : AMState) (key : String) (count : ℕ) (max_score now : ℚ) (success : Bool),
      (decide (70 ≤ max_score) && decide (2 ≤ count)
        || decide (60 ≤ max_score) && decide (3 ≤ count)) = true →
      ¬ now - s.cluster_last_alert key < CLUSTER_COOLDOWN →
      s.daily_cap ≤ s.alerts_sent_today →
      (process_cluster_alert s key count max_score now success).alerts_sent_today
          = s.alerts_sent_today ∧
      (process_cluster_alert s key count max_score now success).cluster_last_alert key
          = now ∧
      (∀ k, k ≠ key →
        (process_cluster_alert s key count max_score now success).cluster_last_alert k
            = s.cluster_last_alert k) ∧
      (process_cluster_alert s key count max_score now success).market_last_alert
          = s.market_last_alert ∧
      (process_cluster_alert s key count max_score now success).daily_cap = s.daily_cap ∧
      (process_cluster_alert s key count max_score now success).alert_mode = s.alert_mode ∧
      (process_cluster_alert s key count max_score now success).debug_sample_every
          = s.debug_sample_every ∧
      (process_cluster_alert s key count max_score now success).debug_min_contracts
          = s.debug_min_contracts ∧
      (process_cluster_alert s key count max_score now success).debug_max_per_min
          = s.debug_max_per_min ∧
      (process_cluster_alert s key count max_score now success).debug_trades_seen
          = s.debug_trades_seen ∧
      (process_cluster_alert s key count max_score now success).debug_sent_last_min
          = s.debug_sent_last_min ∧
      (process_cluster_alert s key count max_score now success).debug_window_start
          = s.debug_window_start) := by
  constructor
  · intro s ticker score now success hscore hcd hcap
    have hsend := sendInternal_of_capped s success hcap
    have heq : process_solo_alert s ticker score now success
        = { s with market_last_alert :=
              fun t => if t = ticker then now else s.market_last_alert t } := by
      simp [process_solo_alert, hscore, hcd, hsend]
    refine ⟨by simp [heq], by simp [heq], ?_, by simp [heq], by simp [heq],
      by simp [heq], by simp [heq], by simp [heq], by simp [heq], by simp [heq],
      by simp [heq], by simp [heq]⟩
    intro t ht
    simp [heq, ht]
  · intro s key count max_score now success htier hcd hcap
    have hsend := sendInternal_of_capped s success hcap
    have heq : process_cluster_alert s key count max_score now success
        = { s with cluster_last_alert :=
              fun k => if k = key then now else s.cluster_last_alert k } := by
      simp [process_cluster_alert, htier, hcd, hsend]
    refine ⟨by simp [heq], by simp [heq], ?_, by simp [heq], by simp [heq],
      by simp [heq], by simp [heq], by simp [heq], by simp [heq], by simp [heq],
      by simp [heq], by simp [heq]⟩
    intro k hk
    simp [heq, hk]

/-- Witness for the amended claim C2 at a concrete input. -/
theorem C2_amended_witness :
    (process_solo_alert (initAM 0 "prod" 20 200 3) "T" 90 1000 true).alerts_sent_today
        = (initAM 0 "prod" 20 200 3).alerts_sent_today ∧
    (process_solo_alert (initAM 0 "prod" 20 200 3) "T" 90 1000 true).market_last_alert "T"
        = 1000 :=
  ⟨(C2_amended_cap_reject_stamps_cooldown.1 (initAM 0 "prod" 20 200 3) "T" 90 1000 true
      (by norm_num) (by norm_num [initAM, MARKET_COOLDOWN]) (by simp [initAM])).1,
   (C2_amended_cap_reject_stamps_cooldown.1 (initAM 0 "prod" 20 200 3) "T" 90 1000 true
      (by norm_num) (by norm_num [initAM, MARKET_COOLDOWN]) (by simp [initAM])).2.1⟩

/-- Claim C5: when a passed-gates solo alert is dispatched and the send
primitive reports failure (`send` returned `false` — `Alerter.send`
converts every internal exception to `false`, so nothing propagates), the
confirmed-dispatch counter is not incremented and the cooldown timestamp
for the ticker is still set to the attempt time. -/
theorem C5_delivery_failure (s : AMState) (ticker : String) (score now : ℚ)
    (hscore : ¬ score < 85)
    (hcd : ¬ now - s.market_last_alert ticker < MARKET_COOLDOWN)
    (_hcap : s.alerts_sent_today < s.daily_cap) :
    (process_solo_alert s ticker score now false).alerts_sent_today
        = s.alerts_sent_today ∧
    (process_solo_alert s ticker score now false).market_last_alert ticker = now := by
  have hsend := sendInternal_false s
  constructor <;> simp [process_solo_alert, hscore, hcd, hsend]

/-- Witness for claim C5 at a concrete input. -/
theorem C5_witness :
    (process_solo_alert (initAM 20 "prod" 20 200 3) "T" 90 1000 false).alerts_sent_today
        = (initAM 20 "prod" 20 200 3).alerts_sent_today ∧
    (process_solo_alert (initAM 20 "prod" 20 200 3) "T" 90 1000 false).market_last_alert "T"
        = 1000 :=
  C5_delivery_failure (initAM 20 "prod" 20 200 3) "T" 90 1000
    (by norm_num) (by norm_num [initAM, MARKET_COOLDOWN]) (by simp [initAM])

/-- Claim C6 counterexample: a fresh gateway (cap 20, no cooldown active)
given a solo candidate with score 1 dispatches nothing and stamps no
cooldown — the threshold is the hardcoded literal 85 in
`process_solo_alert`, so no configuration makes a threshold-1 deployment
reachable, contrary to the claim. -/
theorem C6_counterexample :
    (process_solo_alert (initAM 20 "prod" 20 200 3) "T" 1 1000 true).alerts_sent_today
        = 0 ∧
    (process_solo_alert (initAM 20 "prod" 20 200 3) "T" 1 1000 true).market_last_alert "T"
        = 0 := by
  have h : process_solo_alert (initAM 20 "prod" 20 200 3) "T" 1 1000 true
      = initAM 20 "prod" 20 200 3 := by
    norm_num [process_solo_alert]
  rw [h]
  exact ⟨rfl, rfl⟩

/-- Claim C6 (amended): a solo candidate qualifies if and only if its
score is at least 85; the threshold 85 is hardcoded in
`process_solo_alert` rather than read from the gateway's configuration,
so thresholds other than 85 are not reachable without code change. -/
theorem C6_amended_hardcoded_85 :
    (∀ (s : AMState) (ticker : String) (score now : ℚ) (success : Bool),
      score < 85 → process_solo_alert s ticker score now success = s) ∧
    (∀ (s : AMState) (ticker : String) (score now : ℚ),
      ¬ score < 85 →
      ¬ now - s.market_last_alert ticker < MARKET_COOLDOWN →
      s.alerts_sent_today < s.daily_cap →
      (process_solo_alert s ticker score now true).alerts_sent_today
          = s.alerts_sent_today + 1) := by
  constructor
  · intro s ticker score now success h
    simp [process_solo_alert, h]
  · intro s ticker score now hscore hcd hcap
    have hsend := sendInternal_true_of_can s hcap
    simp [process_solo_alert, hscore, hcd, hsend]

/-- Witness for the amended claim C6 at concrete inputs. -/
theorem C6_amended_witness :
    process_solo_alert (initAM 20 "prod" 20 200 3) "T" 84 1000 true
        = initAM 20 "prod" 20 200 3 ∧
    (process_solo_alert (initAM 20 "prod" 20 200 3) "T" 85 1000 true).alerts_sent_today
        = (initAM 20 "prod" 20 200 3).alerts_sent_today + 1 :=
  ⟨C6_amended_hardcoded_85.1 (initAM 20 "prod" 20 200 3) "T" 84 1000 true (by norm_num),
   C6_amended_hardcoded_85.2 (initAM 20 "prod" 20 200 3) "T" 85 1000
     (by norm_num) (by norm_num [initAM, MARKET_COOLDOWN]) (by simp [initAM])⟩

lemma sizeShockSignal_le (v : ℚ) (m d : Option ℚ) :
    (sizeShockSignal v m d).1 ≤ 40 ∧ (sizeShockSignal v m d).2.length ≤ 1 := by
  rcases m with _ | m <;> rcases d with _ | d <;>
    simp only [sizeShockSignal] <;> (try split_ifs) <;> simp

lemma burstSignal_le (t1 t60 : ℚ) :
    (burstSignal t1 t60).1 ≤ 25 ∧ (burstSignal t1 t60).2.length ≤ 1 := by
  simp only [burstSignal]
  split_ifs <;> simp

lemma shortDatedSignal_le (h : Option ℚ) :
    (shortDatedSignal h).1 ≤ 20 ∧ (shortDatedSignal h).2.length ≤ 1 := by
  rcases h with _ | h
  · simp [shortDatedSignal]
  · simp only [shortDatedSignal]
    split_ifs <;> simp

lemma absSizeSignal_le (v : ℚ) :
    (absSizeSignal v).1 ≤ 20 ∧ (absSizeSignal v).2.length ≤ 1 := by
  simp only [absSizeSignal]
  split_ifs <;> simp

lemma sizeShockSignal_zero_iff (v : ℚ) (m d : Option ℚ) :
    (sizeShockSignal v m d).1 = 0 ↔ (sizeShockSignal v m d).2 = [] := by
  rcases m with _ | m <;> rcases d with _ | d <;>
    simp only [sizeShockSignal] <;> (try split_ifs) <;> simp

lemma burstSignal_zero_iff (t1 t60 : ℚ) :
    (burstSignal t1 t60).1 = 0 ↔ (burstSignal t1 t60).2 = [] := by
  simp only [burstSignal]
  split_ifs <;> simp

lemma shortDatedSignal_zero_iff (h : Option ℚ) :
    (shortDatedSignal h).1 = 0 ↔ (shortDatedSignal h).2 = [] := by
  rcases h with _ | h
  · simp [shortDatedSignal]
  · simp only [shortDatedSignal]
    split_ifs <;> simp

lemma absSizeSignal_zero_iff (v : ℚ) :
    (absSizeSignal v).1 = 0 ↔ (absSizeSignal v).2 = [] := by
  simp only [absSizeSignal]
  split_ifs <;> simp

/-- Claim C7: for every input, `score_trade` returns a score in `[0,100]`
(the score is a natural number and is clamped to 100 by `min`), equal to
the clamped sum of the four per-signal contributions, each signal
contributing via its single highest-qualifying tier with at most one
reason tag, the reasons concatenated in table row order; in the concrete
all-four-signals-max case the raw sum 40+25+20+20 = 105 is clamped
to 100. -/
theorem C7_score_clamped_and_decomposed (v : ℚ) (b : BaselineSnapshot)
    (h : Option ℚ) :
    (score_trade v b h).score ≤ 100 ∧
    (score_trade v b h).score =
      min ((sizeShockSignal v b.median_24h b.mad_24h).1 +
           (burstSignal b.trades_1m b.trades_60m).1 +
           (shortDatedSignal h).1 + (absSizeSignal v).1) 100 ∧
    (score_trade v b h).reasons =
      (sizeShockSignal v b.median_24h b.mad_24h).2 ++
      (burstSignal b.trades_1m b.trades_60m).2 ++
      (shortDatedSignal h).2 ++ (absSizeSignal v).2 ∧
    (sizeShockSignal v b.median_24h b.mad_24h).2.length ≤ 1 ∧
    (burstSignal b.trades_1m b.trades_60m).2.length ≤ 1 ∧
    (shortDatedSignal h).2.length ≤ 1 ∧
    (absSizeSignal v).2.length ≤ 1 ∧
    (score_trade 250000 ⟨some 0, some 1, 25, 60⟩ (some 1)).score = 100 := by
  refine ⟨?_, ?_, ?_, (sizeShockSignal_le _ _ _).2, (burstSignal_le _ _).2,
    (shortDatedSignal_le _).2, (absSizeSignal_le _).2, ?_⟩
  · rw [score_trade_decomp]
    exact min_le_right _ _
  · rw [score_trade_decomp]
  · rw [score_trade_decomp]
  · rw [score_trade_decomp]
    norm_num [sizeShockSignal, burstSignal, shortDatedSignal, absSizeSignal]

/-- Claim C9: the score of a `score_trade` result is zero exactly when its
reasons list is empty (every triggered signal contributes both points and
a tag), and the reasons list never holds more than 4 entries — one per
signal. -/
theorem C9_zero_iff_no_reasons (v : ℚ) (b : BaselineSnapshot) (h : Option ℚ) :
    ((score_trade v b h).score = 0 ↔ (score_trade v b h).reasons = []) ∧
    (score_trade v b h).reasons.length ≤ 4 := by
  rw [score_trade_decomp]
  constructor
  · simp only [List.append_eq_nil]
    rw [← sizeShockSignal_zero_iff v b.median_24h b.mad_24h,
      ← burstSignal_zero_iff b.trades_1m b.trades_60m,
      ← shortDatedSignal_zero_iff h, ← absSizeSignal_zero_iff v]
    omega
  · have h1 := (sizeShockSignal_le v b.median_24h b.mad_24h).2
    have h2 := (burstSignal_le b.trades_1m b.trades_60m).2
    have h3 := (shortDatedSignal_le h).2
    have h4 := (absSizeSignal_le v).2
    simp only [List.length_append]
    omega

/-- Claim C8: under in-order call times (existing entries sorted and no
later than `now`), the `count` returned by `add_event` is the number of
distinct tickers among the entries inside the correlation window;
re-adding a ticker already in the window leaves the distinct count at the
window's distinct-ticker count, while adding a ticker not in the window
yields that count plus one. -/
theorem C8_distinct_count (tr : MarketClusterTracker) (key ticker : String)
    (score now : ℚ)
    (hw : 0 ≤ tr.window)
    (hsort : (tr.events key).Pairwise (fun a b => a.ts ≤ b.ts))
    (hts : ∀ e ∈ tr.events key, e.ts ≤ now) :
    (tr.add_event now key ticker score).2.count =
      ((((tr.events key ++ [(⟨now, ticker, score⟩ : ClusterEvent)]).filter
          (fun e => decide (now - tr.window ≤ e.ts))).map ClusterEvent.ticker).dedup).length ∧
    (ticker ∈ ((tr.events key).filter
        (fun e => decide (now - tr.window ≤ e.ts))).map ClusterEvent.ticker →
      (tr.add_event now key ticker score).2.count =
        ((((tr.events key).filter (fun e => decide (now - tr.window ≤ e.ts))).map
          ClusterEvent.ticker).dedup).length) ∧
    (ticker ∉ ((tr.events key).filter
        (fun e => decide (now - tr.window ≤ e.ts))).map ClusterEvent.ticker →
      (tr.add_event now key ticker score).2.count =
        ((((tr.events key).filter (fun e => decide (now - tr.window ≤ e.ts))).map
          ClusterEvent.ticker).dedup).length + 1) := by
  set dq := tr.events key with hdq
  set newEvt : ClusterEvent := ⟨now, ticker, score⟩ with hnew
  have hpair : (dq ++ [newEvt]).Pairwise (fun a b => a.ts ≤ b.ts) := by
    rw [List.pairwise_append]
    refine ⟨hsort, List.pairwise_singleton _ _, ?_⟩
    intro a ha b hb
    rcases List.mem_singleton.mp hb with rfl
    exact hts a ha
  have hdrop : tr.pruneDeque (dq ++ [newEvt]) now =
      (dq ++ [newEvt]).filter (fun e => decide (now - tr.window ≤ e.ts)) :=
    dropWhile_lt_eq_filter_le ClusterEvent.ts (now - tr.window) _ hpair
  have hkeep : (fun e => decide (now - tr.window ≤ e.ts)) newEvt = true := by
    simp only [hnew, decide_eq_true_eq]
    linarith
  have hsplit : (dq ++ [newEvt]).filter (fun e => decide (now - tr.window ≤ e.ts)) =
      dq.filter (fun e => decide (now - tr.window ≤ e.ts)) ++ [newEvt] := by
    rw [List.filter_append]
    simp [hkeep, hw]
  have hcount : (tr.add_event now key ticker score).2.count =
      ((((dq ++ [newEvt]).filter (fun e => decide (now - tr.window ≤ e.ts))).map
        ClusterEvent.ticker).dedup).length := by
    simp only [MarketClusterTracker.add_event, ← hdq, ← hnew, hdrop]
  refine ⟨hcount, ?_, ?_⟩
  · intro hmem
    rw [hcount, hsplit, List.map_append]
    simp only [hnew, List.map_cons, List.map_nil]
    rw [dedup_length_append_singleton, if_pos hmem]
  · intro hmem
    rw [hcount, hsplit, List.map_append]
    simp only [hnew, List.map_cons, List.map_nil]
    rw [dedup_length_append_singleton, if_neg hmem]

/-- Witness for claim C8 at a concrete input: one in-window entry for
ticker `"A"`, then `add_event` for the new ticker `"B"` returns
count 2. -/
theorem C8_witness :
    ((MarketClusterTracker.mk 300
        (fun k => if k = "pres" then [(⟨0, "A", 50⟩ : ClusterEvent)] else [])).add_event
      10 "pres" "B" 80).2.count = 2 := by
  have h := (C8_distinct_count
    (MarketClusterTracker.mk 300
      (fun k => if k = "pres" then [(⟨0, "A", 50⟩ : ClusterEvent)] else []))
    "pres" "B" 80 10 (by norm_num) (by simp) ?_).1
  · rw [h]
    norm_num [List.filter_cons, List.filter_nil, List.map_cons, List.map_nil]
    decide
  · intro e he
    simp at he
    subst he
    norm_num

/-- Claim C10: every `add_event` call returns a summary of a non-empty
window (given a non-negative correlation window): the just-added event
survives pruning, so `count ≥ 1`, the added ticker is in `markets`, and
`max_score` is at least the score just passed — the empty-window
`max_score = 0` branch is unreachable from `add_event`. -/
theorem C10_summary_nonempty (tr : MarketClusterTracker) (key ticker : String)
    (score now : ℚ) (hw : 0 ≤ tr.window) :
    1 ≤ (tr.add_event now key ticker score).2.count ∧
    ticker ∈ (tr.add_event now key ticker score).2.markets ∧
    score ≤ (tr.add_event now key ticker score).2.max_score := by
  set dq := tr.events key with hdq
  set newEvt : ClusterEvent := ⟨now, ticker, score⟩ with hnew
  have hfalse : (fun e => decide (e.ts < now - tr.window)) newEvt = false := by
    simp only [hnew, decide_eq_false_iff_not, not_lt]
    linarith
  have hsplit : tr.pruneDeque (dq ++ [newEvt]) now =
      dq.dropWhile (fun e => decide (e.ts < now - tr.window)) ++ [newEvt] :=
    dropWhile_append_singleton _ dq newEvt hfalse
  have hmem : newEvt ∈ tr.pruneDeque (dq ++ [newEvt]) now := by
    rw [hsplit]
    exact List.mem_append_right _ (List.mem_singleton.mpr rfl)
  have htick : ticker ∈ ((tr.pruneDeque (dq ++ [newEvt]) now).map ClusterEvent.ticker).dedup := by
    rw [List.mem_dedup]
    exact List.mem_map.mpr ⟨newEvt, hmem, rfl⟩
  refine ⟨?_, ?_, ?_⟩
  · show 1 ≤ (((tr.pruneDeque (dq ++ [newEvt]) now).map ClusterEvent.ticker).dedup).length
    exact List.length_pos.mpr (List.ne_nil_of_mem htick)
  · exact htick
  · show score ≤ pymax ((tr.pruneDeque (dq ++ [newEvt]) now).map ClusterEvent.score)
    exact mem_le_pymax _ score (List.mem_map.mpr ⟨newEvt, hmem, rfl⟩)

/-- Witness for claim C10 at a concrete input: `add_event` on an empty
tracker returns count 1, the added ticker and its score. -/
theorem C10_witness :
    1 ≤ ((MarketClusterTracker.mk 300 (fun _ => [])).add_event 0 "k" "T" 77).2.count ∧
    "T" ∈ ((MarketClusterTracker.mk 300 (fun _ => [])).add_event 0 "k" "T" 77).2.markets ∧
    (77 : ℚ) ≤ ((MarketClusterTracker.mk 300 (fun _ => [])).add_event 0 "k" "T" 77).2.max_score :=
  C10_summary_nonempty (MarketClusterTracker.mk 300 (fun _ => [])) "k" "T" 77 0
    (by norm_num)

/-! ### Window maintenance lemmas for the Baseline Tracker -/

lemma updateMarket_windows (s : MarketState) (u : UpdateCall) :
    (updateMarket s u).w1m = appendAndPrune WIN_1M u.ts (u.contracts * u.yes_price) s.w1m ∧
    (updateMarket s u).w5m = appendAndPrune WIN_5M u.ts (u.contracts * u.yes_price) s.w5m ∧
    (updateMarket s u).w60m = appendAndPrune WIN_60M u.ts (u.contracts * u.yes_price) s.w60m ∧
    (updateMarket s u).w24h = appendAndPrune WIN_24H u.ts (u.contracts * u.yes_price) s.w24h := by
  simp only [updateMarket]
  split_ifs <;> exact ⟨rfl, rfl, rfl, rfl⟩

lemma updateMarket_stats (s : MarketState) (u : UpdateCall) :
    (updateMarket s u).median_24h =
      (if 5 ≤ ((appendAndPrune WIN_24H u.ts (u.contracts * u.yes_price) s.w24h).map
            (fun e => (e.vol : ℚ))).length
       then some (pymedian ((appendAndPrune WIN_24H u.ts (u.contracts * u.yes_price) s.w24h).map
            (fun e => (e.vol : ℚ))))
       else s.median_24h) ∧
    (updateMarket s u).mad_24h =
      (if 5 ≤ ((appendAndPrune WIN_24H u.ts (u.contracts * u.yes_price) s.w24h).map
            (fun e => (e.vol : ℚ))).length
       then some (pymedian (((appendAndPrune WIN_24H u.ts (u.contracts * u.yes_price) s.w24h).map
            (fun e => (e.vol : ℚ))).map
            (fun v => |v - pymedian ((appendAndPrune WIN_24H u.ts (u.contracts * u.yes_price) s.w24h).map
              (fun e => (e.vol : ℚ)))|)))
       else s.mad_24h) := by
  simp only [updateMarket]
  split_ifs <;> exact ⟨rfl, rfl⟩

lemma appendAndPrune_nil (W t v : ℤ) (hW : 0 ≤ W) :
    appendAndPrune W t v [] = [(⟨t, v⟩ : TradeEntry)] := by
  unfold appendAndPrune
  rw [List.nil_append, List.dropWhile_cons_of_neg]
  simp only [decide_eq_true_eq, not_lt]
  omega

/-- The inductive step of window maintenance: if the deque currently holds
exactly the appended entries within the window of the previous update time
`tprev`, then after appending at time `t ≥ tprev` and pruning, it holds
exactly the appended entries within the window of `t`. -/
lemma appendAndPrune_filter_step (W : ℤ) (ES : List TradeEntry)
    (tprev t v : ℤ) (hle : tprev ≤ t)
    (hts : ∀ e ∈ ES, e.ts ≤ tprev)
    (hsort : ES.Pairwise (fun a b => a.ts ≤ b.ts)) :
    appendAndPrune W t v (ES.filter (fun e => decide (tprev - W ≤ e.ts))) =
      (ES ++ [(⟨t, v⟩ : TradeEntry)]).filter (fun e => decide (t - W ≤ e.ts)) := by
  unfold appendAndPrune
  have hsubpair : (ES.filter (fun e => decide (tprev - W ≤ e.ts))).Pairwise
      (fun a b => a.ts ≤ b.ts) := hsort.sublist (List.filter_sublist ES)
  have hpair : (ES.filter (fun e => decide (tprev - W ≤ e.ts)) ++
      [(⟨t, v⟩ : TradeEntry)]).Pairwise (fun a b => a.ts ≤ b.ts) := by
    rw [List.pairwise_append]
    refine ⟨hsubpair, List.pairwise_singleton _ _, ?_⟩
    intro a ha b hb
    rcases List.mem_singleton.mp hb with rfl
    exact le_trans (hts a (List.mem_of_mem_filter ha)) hle
  rw [dropWhile_lt_eq_filter_le TradeEntry.ts (t - W) _ hpair,
    List.filter_append, List.filter_append, List.filter_filter]
  congr 1
  apply List.filter_congr
  intro a _
  by_cases hp : t - W ≤ a.ts
  · have hq : tprev - W ≤ a.ts := by omega
    simp [hp, hq]
  · simp [hp]

/-- The entries appended over a run: `(ts, contracts * yes_price_cents)`
for each update, in call order. -/
def entriesOf (upds : List UpdateCall) : List TradeEntry :=
  upds.map (fun u => (⟨u.ts, u.contracts * u.yes_price⟩ : TradeEntry))

lemma runUpdatesFrom_concat (s : MarketState) (upds : List UpdateCall)
    (u : UpdateCall) :
    runUpdatesFrom s (upds ++ [u]) = updateMarket (runUpdatesFrom s upds) u := by
  simp [runUpdatesFrom, List.foldl_append]

/-- Window-content characterisation of a run: after a non-empty
monotone-timestamp run ending at time `u.ts`, each window holds exactly
the appended entries whose timestamp is at least `u.ts` minus the window
duration. -/
lemma runUpdates_window_char (upds : List UpdateCall) :
    ∀ (u : UpdateCall),
    ((upds ++ [u]).map UpdateCall.ts).Pairwise (· ≤ ·) →
    (runUpdatesFrom initMarket (upds ++ [u])).w1m =
      (entriesOf (upds ++ [u])).filter (fun e => decide (u.ts - WIN_1M ≤ e.ts)) ∧
    (runUpdatesFrom initMarket (upds ++ [u])).w5m =
      (entriesOf (upds ++ [u])).filter (fun e => decide (u.ts - WIN_5M ≤ e.ts)) ∧
    (runUpdatesFrom initMarket (upds ++ [u])).w60m =
      (entriesOf (upds ++ [u])).filter (fun e => decide (u.ts - WIN_60M ≤ e.ts)) ∧
    (runUpdatesFrom initMarket (upds ++ [u])).w24h =
      (entriesOf (upds ++ [u])).filter (fun e => decide (u.ts - WIN_24H ≤ e.ts)) := by
  induction upds using List.reverseRecOn with
  | nil =>
    intro u _
    have hrun : runUpdatesFrom initMarket ([] ++ [u]) = updateMarket initMarket u := by
      simp [runUpdatesFrom]
    obtain ⟨h1, h5, h60, h24⟩ := updateMarket_windows initMarket u
    have hfilter : ∀ W : ℤ, 0 ≤ W →
        appendAndPrune W u.ts (u.contracts * u.yes_price) [] =
          (entriesOf ([] ++ [u])).filter (fun e => decide (u.ts - W ≤ e.ts)) := by
      intro W hW
      rw [appendAndPrune_nil _ _ _ hW]
      simp only [List.nil_append, entriesOf, List.map_cons, List.map_nil,
        List.filter_cons, List.filter_nil]
      rw [if_pos]
      simp only [decide_eq_true_eq]
      omega
    rw [hrun]
    exact ⟨by rw [h1]; exact hfilter WIN_1M (by decide),
      by rw [h5]; exact hfilter WIN_5M (by decide),
      by rw [h60]; exact hfilter WIN_60M (by decide),
      by rw [h24]; exact hfilter WIN_24H (by decide)⟩
  | append_singleton l p ih =>
    intro u hs
    have hs' : ((l ++ [p]).map UpdateCall.ts).Pairwise (· ≤ ·) := by
      refine List.Pairwise.sublist ?_ hs
      exact List.Sublist.map _ (List.sublist_append_left _ _)
    have hsplit := (List.pairwise_append.mp
      (by rwa [List.map_append] at hs)).2.2
    have hple : p.ts ≤ u.ts := by
      have := hsplit p.ts (by simp) u.ts (by simp)
      exact this
    have hts_all : ∀ e ∈ entriesOf (l ++ [p]), e.ts ≤ p.ts := by
      intro e he
      rcases List.mem_map.mp he with ⟨c, hc, rfl⟩
      have hpair := (List.pairwise_append.mp
        (by rwa [List.map_append] at hs')).2.2
      rcases List.mem_append.mp hc with hcl | hcp
      · exact hpair c.ts (List.mem_map_of_mem _ hcl) p.ts (by simp)
      · rcases List.mem_singleton.mp hcp with rfl
        exact le_refl _
    have hsort_entries : (entriesOf (l ++ [p])).Pairwise (fun a b => a.ts ≤ b.ts) := by
      unfold entriesOf
      rw [List.pairwise_map]
      have := List.pairwise_map.mp hs'
      exact this
    obtain ⟨ih1, ih5, ih60, ih24⟩ := ih p hs'
    have hrun := runUpdatesFrom_concat initMarket (l ++ [p]) u
    obtain ⟨h1, h5, h60, h24⟩ := updateMarket_windows (runUpdatesFrom initMarket (l ++ [p])) u
    have hent : entriesOf ((l ++ [p]) ++ [u]) =
        entriesOf (l ++ [p]) ++ [(⟨u.ts, u.contracts * u.yes_price⟩ : TradeEntry)] := by
      simp [entriesOf]
    refine ⟨?_, ?_, ?_, ?_⟩
    · rw [hrun, h1, ih1, hent]
      exact appendAndPrune_filter_step WIN_1M _ p.ts u.ts _ hple hts_all hsort_entries
    · rw [hrun, h5, ih5, hent]
      exact appendAndPrune_filter_step WIN_5M _ p.ts u.ts _ hple hts_all hsort_entries
    · rw [hrun, h60, ih60, hent]
      exact appendAndPrune_filter_step WIN_60M _ p.ts u.ts _ hple hts_all hsort_entries
    · rw [hrun, h24, ih24, hent]
      exact appendAndPrune_filter_step WIN_24H _ p.ts u.ts _ hple hts_all hsort_entries

/-- Claim C4: for every ticker and every non-empty sequence of updates
with non-decreasing timestamps, after the last update each of the four
window sequences contains exactly the appended entries whose timestamp is
at least the latest update time minus that window's duration. -/
theorem C4_windows_exact (ticker : String) (upds : List UpdateCall)
    (u : UpdateCall)
    (hs : ((upds ++ [u]).map UpdateCall.ts).Pairwise (· ≤ ·)) :
    runBaselines ticker (upds ++ [u]) ticker
      = some (runUpdatesFrom initMarket (upds ++ [u])) ∧
    (runUpdatesFrom initMarket (upds ++ [u])).w1m =
      (entriesOf (upds ++ [u])).filter (fun e => decide (u.ts - WIN_1M ≤ e.ts)) ∧
    (runUpdatesFrom initMarket (upds ++ [u])).w5m =
      (entriesOf (upds ++ [u])).filter (fun e => decide (u.ts - WIN_5M ≤ e.ts)) ∧
    (runUpdatesFrom initMarket (upds ++ [u])).w60m =
      (entriesOf (upds ++ [u])).filter (fun e => decide (u.ts - WIN_60M ≤ e.ts)) ∧
    (runUpdatesFrom initMarket (upds ++ [u])).w24h =
      (entriesOf (upds ++ [u])).filter (fun e => decide (u.ts - WIN_24H ≤ e.ts)) := by
  obtain ⟨h1, h5, h60, h24⟩ := runUpdates_window_char upds u hs
  exact ⟨runBaselines_apply ticker _ (by simp), h1, h5, h60, h24⟩

/-- Witness for claim C4 at a concrete input: two updates 61 seconds
apart; the 1-minute window of the final state keeps only the second
entry. -/
theorem C4_witness :
    runBaselines "T" ([(⟨0, 2, 3⟩ : UpdateCall)] ++ [(⟨61000, 4, 5⟩ : UpdateCall)]) "T"
      = some (runUpdatesFrom initMarket
          ([(⟨0, 2, 3⟩ : UpdateCall)] ++ [(⟨61000, 4, 5⟩ : UpdateCall)])) ∧
    (runUpdatesFrom initMarket
        ([(⟨0, 2, 3⟩ : UpdateCall)] ++ [(⟨61000, 4, 5⟩ : UpdateCall)])).w1m
      = (entriesOf ([(⟨0, 2, 3⟩ : UpdateCall)] ++ [(⟨61000, 4, 5⟩ : UpdateCall)])).filter
          (fun e => decide ((61000 : ℤ) - WIN_1M ≤ e.ts)) :=
  ⟨(C4_windows_exact "T" [⟨0, 2, 3⟩] ⟨61000, 4, 5⟩ (by decide)).1,
   (C4_windows_exact "T" [⟨0, 2, 3⟩] ⟨61000, 4, 5⟩ (by decide)).2.1⟩

/-! ### Derived-statistics lifecycle for the Baseline Tracker -/

lemma runUpdates_stats_none_iff (upds : List UpdateCall) :
    ∀ (s : MarketState),
    ((runUpdatesFrom s upds).median_24h = none ↔
      (s.median_24h = none ∧ ∀ st ∈ runStates s upds, st.w24h.length < 5)) ∧
    ((runUpdatesFrom s upds).mad_24h = none ↔
      (s.mad_24h = none ∧ ∀ st ∈ runStates s upds, st.w24h.length < 5)) := by
  induction upds with
  | nil => intro s; simp [runUpdatesFrom, runStates]
  | cons u rest ih =>
    intro s
    have hrun : runUpdatesFrom s (u :: rest) = runUpdatesFrom (updateMarket s u) rest := rfl
    have hstates : runStates s (u :: rest)
        = updateMarket s u :: runStates (updateMarket s u) rest := rfl
    have hmed := (updateMarket_stats s u).1
    have hmad := (updateMarket_stats s u).2
    have hw24 := (updateMarket_windows s u).2.2.2
    have hlen : (updateMarket s u).w24h.length =
        ((appendAndPrune WIN_24H u.ts (u.contracts * u.yes_price) s.w24h).map
          (fun e => (e.vol : ℚ))).length := by
      rw [hw24, List.length_map]
    constructor
    · rw [hrun, (ih (updateMarket s u)).1, hstates]
      simp only [List.mem_cons, forall_eq_or_imp]
      constructor
      · rintro ⟨hnone, hrest⟩
        by_cases hc : 5 ≤ ((appendAndPrune WIN_24H u.ts (u.contracts * u.yes_price) s.w24h).map
            (fun e => (e.vol : ℚ))).length
        · rw [hmed, if_pos hc] at hnone
          cases hnone
        · rw [hmed, if_neg hc] at hnone
          exact ⟨hnone, by omega, hrest⟩
      · rintro ⟨hs_none, hlt, hrest⟩
        have hc : ¬ 5 ≤ ((appendAndPrune WIN_24H u.ts (u.contracts * u.yes_price) s.w24h).map
            (fun e => (e.vol : ℚ))).length := by omega
        refine ⟨?_, hrest⟩
        rw [hmed, if_neg hc]
        exact hs_none
    · rw [hrun, (ih (updateMarket s u)).2, hstates]
      simp only [List.mem_cons, forall_eq_or_imp]
      constructor
      · rintro ⟨hnone, hrest⟩
        by_cases hc : 5 ≤ ((appendAndPrune WIN_24H u.ts (u.contracts * u.yes_price) s.w24h).map
            (fun e => (e.vol : ℚ))).length
        · rw [hmad, if_pos hc] at hnone
          cases hnone
        · rw [hmad, if_neg hc] at hnone
          exact ⟨hnone, by omega, hrest⟩
      · rintro ⟨hs_none, hlt, hrest⟩
        have hc : ¬ 5 ≤ ((appendAndPrune WIN_24H u.ts (u.contracts * u.yes_price) s.w24h).map
            (fun e => (e.vol : ℚ))).length := by omega
        refine ⟨?_, hrest⟩
        rw [hmad, if_neg hc]
        exact hs_none

/-- Five identical updates at time 0, then one update a hair over 24
hours later, which evicts the five old entries from the 24h window. -/
def c3upds : List UpdateCall :=
  [⟨0, 1, 1⟩, ⟨0, 1, 1⟩, ⟨0, 1, 1⟩, ⟨0, 1, 1⟩, ⟨0, 1, 1⟩, ⟨86400001, 1, 1⟩]

/-- Claim C3 counterexample: after `c3upds` the 24h window holds a single
entry (fewer than 5 samples) yet `median_24h` and `mad_24h` are still
defined — the stale statistics from the 5-sample state are never reset to
`None` when eviction shrinks the window below 5. -/
theorem C3_counterexample :
    (runUpdatesFrom initMarket c3upds).w24h.length < 5 ∧
    (runUpdatesFrom initMarket c3upds).median_24h ≠ none ∧
    (runUpdatesFrom initMarket c3upds).mad_24h ≠ none := by
  refine ⟨by decide, by decide, by decide⟩

/-- Claim C3 (amended): `median_24h` / `mad_24h` are `None` exactly when
no update so far has left the 24h window with 5 or more samples; whenever
an update leaves the window with 5 or more samples they are recomputed
from the full current 24h sequence; when eviction later shrinks the
window below 5 they retain their last computed values instead of
reverting to `None`. -/
theorem C3_amended_stats_lifecycle (upds : List UpdateCall) :
    ((runUpdatesFrom initMarket upds).median_24h = none ↔
      ∀ st ∈ runStates initMarket upds, st.w24h.length < 5) ∧
    ((runUpdatesFrom initMarket upds).mad_24h = none ↔
      ∀ st ∈ runStates initMarket upds, st.w24h.length < 5) ∧
    (5 ≤ (runUpdatesFrom initMarket upds).w24h.length →
      (runUpdatesFrom initMarket upds).median_24h =
        some (pymedian ((runUpdatesFrom initMarket upds).w24h.map (fun e => (e.vol : ℚ)))) ∧
      (runUpdatesFrom initMarket upds).mad_24h =
        some (pymedian (((runUpdatesFrom initMarket upds).w24h.map (fun e => (e.vol : ℚ))).map
          (fun v => |v - pymedian ((runUpdatesFrom initMarket upds).w24h.map
            (fun e => (e.vol : ℚ)))|)))) := by
  obtain ⟨hmed, hmad⟩ := runUpdates_stats_none_iff upds initMarket
  refine ⟨?_, ?_, ?_⟩
  · rw [hmed]
    simp [initMarket]
  · rw [hmad]
    simp [initMarket]
  · rcases List.eq_nil_or_concat upds with rfl | ⟨pre, u, rfl⟩
    · intro h
      simp [runUpdatesFrom, initMarket] at h
    · simp only [List.concat_eq_append]
      rw [runUpdatesFrom_concat]
      intro h5
      have hsm := updateMarket_stats (runUpdatesFrom initMarket pre) u
      have hw24 := (updateMarket_windows (runUpdatesFrom initMarket pre) u).2.2.2
      have hc : 5 ≤ ((appendAndPrune WIN_24H u.ts (u.contracts * u.yes_price)
          (runUpdatesFrom initMarket pre).w24h).map (fun e => (e.vol : ℚ))).length := by
        rw [List.length_map, ← hw24]
        exact h5
      constructor
      · rw [hsm.1, if_pos hc, hw24]
      · rw [hsm.2, if_pos hc, hw24]

/-- The first five updates of `c3upds`: enough samples to define the
statistics. -/
def c3base : List UpdateCall :=
  [⟨0, 1, 1⟩, ⟨0, 1, 1⟩, ⟨0, 1, 1⟩, ⟨0, 1, 1⟩, ⟨0, 1, 1⟩]

/-- Witness for the amended claim C3 at a concrete input. -/
theorem C3_amended_witness :
    5 ≤ (runUpdatesFrom initMarket c3base).w24h.length ∧
    (runUpdatesFrom initMarket c3base).median_24h =
      some (pymedian ((runUpdatesFrom initMarket c3base).w24h.map (fun e => (e.vol : ℚ)))) :=
  ⟨by decide, ((C3_amended_stats_lifecycle c3base).2.2 (by decide)).1⟩

end KalshiAlerts
